import Mathlib

/-!
Verification of the mongodb-to-S3 backup/restore orchestrator
(`src/index.js`) against its natural-language specification.

The JavaScript source is shallowly embedded: every operation becomes a pure
Lean function from an explicit environment (process exit codes, S3 responses,
filesystem contents) to the trace of observable events it performs (log
calls, spawned processes, shell command executions, S3 transfers) together
with the invocations of its completion callback.  External collaborators that
are not part of `src/' (the `rm` binary reached through `child_process.exec`,
and the `async.series` sequencing combinator) are modelled from the
specification's description of them; each such definition says so in its doc
comment.
-/

namespace MongoS3

/-! ### Decimal rendering of JavaScript numbers

The JavaScript code converts numbers to strings implicitly (string
concatenation and `Array.prototype.join`), which renders a nonnegative
integer in decimal.  `natToDec` is the executable embedding of that
conversion. -/

/-- Decimal digit character for a value below ten, `0 ↦ '0', …, 9 ↦ '9'`. -/
def decDigit (n : Nat) : Char := Char.ofNat (48 + n)

/-- Fuel-indexed most-significant-first decimal digit list of `n`;
any `fuel > n` yields the digits of `n`. -/
def decAux : Nat → Nat → List Char
  | 0, _ => []
  | fuel + 1, n =>
    if n < 10 then [decDigit n]
    else decAux fuel (n / 10) ++ [decDigit (n % 10)]

/-- Decimal string of a natural number, as JavaScript renders a nonnegative
number when concatenated into a string. -/
def natToDec (n : Nat) : String := String.mk (decAux (n + 1) n)

/-- Digits of the decimal rendering, without the fuel. -/
def decDigitsOf (n : Nat) : List Char := decAux (n + 1) n

/-- Numeric value parsed back from a most-significant-first digit list. -/
def decVal (l : List Char) : Nat := l.foldl (fun a c => 10 * a + (c.toNat - 48)) 0

/-- Substring containment, stated on the character lists. -/
def containsStr (s sub : String) : Prop := sub.data <:+: s.data

instance (s sub : String) : Decidable (containsStr s sub) :=
  List.decidableInfix sub.data s.data

/-- Characters of a string, lower-cased. -/
def lowerChars (s : String) : List Char := s.data.map Char.toLower

/-- Case-insensitive substring containment.  The source capitalizes tool
names inside error messages (`"Mongodump exited with code 1"` for the tool
`mongodump`), so "the message mentions the tool's name" is read up to
letter case. -/
def containsCI (s sub : String) : Prop := lowerChars sub <:+: lowerChars s

instance (s sub : String) : Decidable (containsCI s sub) :=
  List.decidableInfix (lowerChars sub) (lowerChars s)

/-- Embedding of node's `path.join` for the shapes used in the source:
concatenation with a single separating slash (no slash is doubled when the
left part already ends in one, as with the default destination `"/"`). -/
def pathJoin (a b : String) : String :=
  if a.data.getLast? = some '/' then a ++ b else a ++ "/" ++ b

/-- Character list with the first occurrence of `pat` removed. -/
def removeFirstSub (pat : List Char) : List Char → List Char
  | [] => []
  | x :: xs =>
    if pat.isPrefixOf (x :: xs) then (x :: xs).drop pat.length
    else x :: removeFirstSub pat xs

/-- Embedding of JavaScript `String.prototype.replace(pat, '')`, which
removes only the first occurrence of `pat`. -/
def replaceFirst (s pat : String) : String :=
  if pat.data.isEmpty then s else String.mk (removeFirstSub pat.data s.data)

/-- Splitting a character list at every occurrence of the separator `c`,
keeping empty pieces, as JavaScript `String.prototype.split` does. -/
def splitChars (c : Char) : List Char → List Char → List String
  | acc, [] => [String.mk acc.reverse]
  | acc, x :: xs =>
    if x = c then String.mk acc.reverse :: splitChars c [] xs
    else splitChars c (x :: acc) xs

/-- Words a POSIX shell derives from an unquoted command string by splitting
on spaces; used to express what `child_process.exec` hands to `/bin/sh`. -/
def shellWords (s : String) : List String := splitChars ' ' [] s.data

/-! ### Data model -/

/-- MongoDB connection options `[host, port, username, password, db]` as
passed to `mongoDump`/`mongoRestore`.  `username`/`password` are `none` when
the field is absent; an empty string is falsy in JavaScript and is therefore
treated by `truthy` like an absent field. -/
structure MongoConfig where
  host : String
  port : Nat
  username : Option String
  password : Option String
  db : String

/-- S3 options `[key, secret, bucket]` with the optional `destination`
prefix. -/
structure S3Config where
  key : String
  secret : String
  bucket : String
  destination : Option String

/-- Components a JavaScript `Date` exposes to `getArchiveName`:
`getFullYear()`, `getMonth()` (0-indexed month), `getDate()` (day of month)
and `getTime()` (epoch milliseconds). -/
structure JsDate where
  fullYear : Nat
  month0 : Nat
  dayOfMonth : Nat
  epochMillis : Nat

/-- JavaScript truthiness of an optional string field: present and
non-empty. -/
def truthy : Option String → Bool
  | none => false
  | some s => !s.data.isEmpty

/-- Guard of the credential-appending branch:
`options.username && options.password`. -/
def bothCreds (o : MongoConfig) : Bool := truthy o.username && truthy o.password

/-- Archive name from `getArchiveName`:
`[databaseName, getFullYear(), getMonth()+1, getDate(), getTime()].join('_')
 + '.tar.gz'`. -/
def getArchiveName (databaseName : String) (date : JsDate) : String :=
  databaseName ++ "_" ++ natToDec date.fullYear ++ "_" ++
    natToDec (date.month0 + 1) ++ "_" ++ natToDec date.dayOfMonth ++ "_" ++
    natToDec date.epochMillis ++ ".tar.gz"

/-! ### Observable events

Every side effect of the source is recorded as an `Event`: a `log(message,
tag)` call, a `child_process.exec` of a shell command string, a
`child_process.spawn` of an executable with an argument vector (and optional
working directory), an S3 put/get, an `fs.mkdir` call, and an
`fs.createWriteStream` call. -/

inductive Event where
  | log (message tag : String)
  | execCmd (cmd : String)
  | spawnProc (cmd : String) (args : List String) (cwd : Option String)
  | s3Put (source dest : String)
  | s3Get (target : String)
  | mkdirCall (dir : String)
  | createWrite (path : String)
deriving DecidableEq

abbrev Trace := List Event

abbrev Err := String

/-! ### Process runners

A run of an external child process is described by the stream events it
emits (`stdout`/`stderr` data chunks, in arrival order) and its exit
code. -/

inductive ProcEv where
  | out (data : String)
  | err (data : String)
deriving DecidableEq

structure ProcRun where
  events : List ProcEv
  exitCode : Nat

/-- Logging performed by the handlers `child.stdout.on('data', …)` (tag
defaults to `info`) and `child.stderr.on('data', …)` (tag `error`), for the
runners that register both handlers. -/
def stdLogsBoth (evs : List ProcEv) : Trace :=
  evs.map fun e =>
    match e with
    | .out d => .log d "info"
    | .err d => .log d "error"

/-- Logging performed when only a `stderr` handler is registered (the
`compressDirectory` runner registers no `stdout` handler): `stdout` chunks
produce no log at all. -/
def stderrLogsOnly (evs : List ProcEv) : Trace :=
  evs.filterMap fun e =>
    match e with
    | .out _ => none
    | .err d => some (.log d "error")

/-- Argument vector built by `mongoDump`. -/
def mongoDumpArgs (o : MongoConfig) (directory : String) : List String :=
  ["-h", o.host ++ ":" ++ natToDec o.port, "-d", o.db, "-o", directory] ++
    (if bothCreds o then
      ["-u", o.username.getD "", "-p", o.password.getD ""]
    else [])

/-- Argument vector built by `mongoRestore`. -/
def mongoRestoreArgs (o : MongoConfig) (backupDir : String) : List String :=
  ["-h", o.host ++ ":" ++ natToDec o.port, "-d", o.db, "--drop", backupDir] ++
    (if bothCreds o then
      ["-u", o.username.getD "", "-p", o.password.getD ""]
    else [])

/-- Embedding of `mongoDump`: start log, spawn of `mongodump`, streamed
stdout/stderr logs, then the exit handler (success iff exit code 0). -/
def mongoDump (o : MongoConfig) (directory : String) (run : ProcRun) :
    Trace × Option Err :=
  ([.log ("Starting mongodump of " ++ o.db) "info",
    .spawnProc "mongodump" (mongoDumpArgs o directory) none] ++
    stdLogsBoth run.events ++
    (if run.exitCode = 0 then [.log "mongodump executed successfully" "info"]
     else []),
   if run.exitCode = 0 then none
   else some ("Mongodump exited with code " ++ natToDec run.exitCode))

/-- Embedding of `compressDirectory`: start log, spawn of `tar -zcf output
input` with working directory `directory`, streamed stderr logs (no stdout
handler is registered in the source), then the exit handler. -/
def compressDirectory (directory input output : String) (run : ProcRun) :
    Trace × Option Err :=
  ([.log ("Starting compression of " ++ input ++ " into " ++ output) "info",
    .spawnProc "tar" ["-zcf", output, input] (some directory)] ++
    stderrLogsOnly run.events ++
    (if run.exitCode = 0 then [.log "successfully compress directory" "info"]
     else []),
   if run.exitCode = 0 then none
   else some ("Tar exited with code " ++ natToDec run.exitCode))

/-- Embedding of `uncompressArchive`: start log, spawn of `tar -zxvf input`
with working directory `output`, streamed stdout/stderr logs, then the exit
handler. -/
def uncompressArchive (input output : String) (run : ProcRun) :
    Trace × Option Err :=
  ([.log ("Starting decompression of " ++ input ++ " into " ++ output) "info",
    .spawnProc "tar" ["-zxvf", input] (some output)] ++
    stdLogsBoth run.events ++
    (if run.exitCode = 0 then [.log "successfully uncompressed archive" "info"]
     else []),
   if run.exitCode = 0 then none
   else some ("Tar exited with code " ++ natToDec run.exitCode))

/-- Embedding of `mongoRestore`: start log, spawn of `mongorestore`,
streamed stdout/stderr logs, then the exit handler. -/
def mongoRestore (o : MongoConfig) (backupDir : String) (run : ProcRun) :
    Trace × Option Err :=
  ([.log ("Starting mongorestore of " ++ o.db) "info",
    .spawnProc "mongorestore" (mongoRestoreArgs o backupDir) none] ++
    stdLogsBoth run.events ++
    (if run.exitCode = 0 then [.log "mongorestore executed successfully" "info"]
     else []),
   if run.exitCode = 0 then none
   else some ("Mongorestore exited with code " ++ natToDec run.exitCode))

/-! ### Object store transfers -/

/-- Behavior of the store on a `putFile`: either the transport reports an
error, or a response arrives with a status code and a list of body
chunks. -/
inductive S3PutEnv where
  | transportErr (e : Err)
  | response (status : Nat) (chunks : List String)

/-- Default of `options.destination || '/'`. -/
def destinationOf : Option String → String
  | none => "/"
  | some s => if s.data.isEmpty then "/" else s

/-- Embedding of `sendToS3`: attempt log and streamed put; a transport error
fails immediately; otherwise each response chunk is logged (`error` tag when
the status is not 200, default `info` tag otherwise) and at stream end a
non-200 status fails with the status embedded in the message, while a 200
status logs success and succeeds. -/
def sendToS3 (o : S3Config) (directory target : String) (env : S3PutEnv) :
    Trace × Option Err :=
  let head : Trace :=
    [.log ("Attemping to upload " ++ target ++ " to the " ++ o.bucket ++
        " s3 bucket") "info",
     .s3Put (pathJoin directory target)
       (pathJoin (destinationOf o.destination) target)]
  match env with
  | .transportErr e => (head, some e)
  | .response st chunks =>
    let chunkLogs : Trace :=
      chunks.map fun c => .log c (if st = 200 then "info" else "error")
    if st = 200 then
      (head ++ chunkLogs ++ [.log "Successfully uploaded to s3" "info"], none)
    else
      (head ++ chunkLogs,
       some ("Expected a 200 response from S3, got " ++ natToDec st))

/-- Behavior of the store on a `getFile`: either a transport error, or a
response with a status code, the byte counts of the body chunks, the result
of the `fs.mkdir` call, and whether the output file's `close` event fires
(it does once piping completes). -/
inductive S3GetEnv where
  | transportErr (e : Err)
  | response (status : Nat) (chunkSizes : List Nat) (mkdirErr : Option Err)
      (closes : Bool)

/-- Embedding of `getFromS3`.  Unlike the other operations its completion
callback can fire more than once, so the result carries the list of callback
invocations in order: on a non-200 status the `end` handler invokes the
callback with an error, and the file stream's `close` handler invokes it
again with no error.  Note the source's quirks kept here: `log("Status ",
res.statusCode)` and `log("bytes received ", chunk.length)` pass the number
as the log tag, and the transport-error message is just
`'Error when downloading'` (the `err` argument of `new Error` is ignored). -/
def getFromS3 (o : S3Config) (target destination : String) (env : S3GetEnv) :
    Trace × List (Option Err) :=
  let head : Trace :=
    [.log ("Attempting to download " ++ target ++ " from " ++ " bucket " ++
        o.bucket) "info",
     .s3Get target]
  match env with
  | .transportErr e => (head ++ [.log e "info"], [some "Error when downloading"])
  | .response st sizes mkErr closes =>
    (head ++
      [.log "Status " (natToDec st),
       .log ("SAVING FILE to" ++ destination) "info",
       .mkdirCall (replaceFirst destination target)] ++
      (match mkErr with
       | some e => [.log ("Error in getFromS3: " ++ e) "error"]
       | none => []) ++
      [.createWrite destination] ++
      sizes.map (fun sz => .log "bytes received " (natToDec sz)) ++
      (if st = 200 then [.log "FILE FULLY DOWNLOADED" "info"] else []) ++
      (if closes then [.log "FILE FULLY WRITTEN TO DISK" "info"] else []),
     (if st = 200 then []
      else [some ("Expected a 200 response from S3, got " ++ natToDec st)]) ++
      (if closes then [none] else []))

/-! ### Filesystem and `removeRF` -/

/-- Filesystem abstraction: the list of existing path trees, each tagged
with whether it is a directory (`true`) or a regular file (`false`). -/
abbrev FS := List (String × Bool)

/-- Existence check, as `fs.exists(target, …)`. -/
def fsExists (fs : FS) (p : String) : Bool := fs.any fun e => e.1 == p

/-- Modelled from the spec: the external `rm` binary invoked through
`child_process.exec` is not part of `src/`; per the specification it removes
the target "recursively and forcefully (must also succeed if path is a
regular file, not just a directory)", so it deletes the target entry and
everything below it, for files and directories alike. -/
def rmTree (fs : FS) (target : String) : FS :=
  fs.filter fun e => !(e.1 == target || (target ++ "/").data.isPrefixOf e.1.data)

/-- Embedding of `removeRF`: check existence first; if absent succeed with
no further action; if present log a warning and execute the shell command
`'rm -rf ' + target` (string concatenation, no quoting), whose effect and
success are those of `rmTree`. -/
def removeRF (fs : FS) (target : String) : FS × Trace × Option Err :=
  if fsExists fs target then
    (rmTree fs target,
     [.log ("Removing " ++ target) "warn", .execCmd ("rm -rf " ++ target)],
     none)
  else (fs, [], none)

/-! ### Pipeline sequencing -/

/-- One pipeline step: given the filesystem, produce the new filesystem, the
trace of the step, and `some e?` when its callback fires first with `e?`
(`none` when the callback never fires). -/
abbrev StepFn := FS → FS × Trace × Option (Option Err)

/-- Modelled from the spec: `async.series` sequencing.  Steps are strictly
sequential, the next step starts only after the previous one reports
success, and the first error short-circuits, skipping every remaining step
and surfacing that error.  Only the first completion signal of a step is
consumed. -/
def runSeries : List StepFn → StepFn
  | [] => fun fs => (fs, [], some none)
  | step :: rest => fun fs =>
    let o := step fs
    match o.2.2 with
    | some none =>
      let o' := runSeries rest o.1
      (o'.1, o.2.1 ++ o'.2.1, o'.2.2)
    | some (some e) => (o.1, o.2.1, some (some e))
    | none => (o.1, o.2.1, none)

/-- Step wrapper for an operation that ignores the filesystem and always
completes exactly once. -/
def pureStep (p : Trace × Option Err) : StepFn :=
  fun fs => (fs, p.1, some p.2)

/-- Step wrapper for `removeRF`, which reads and updates the filesystem and
always completes exactly once. -/
def removeRFStep (target : String) : StepFn :=
  fun fs =>
    let r := removeRF fs target
    (r.1, r.2.1, some r.2.2)

/-- Step wrapper for `getFromS3`: the series consumes the first callback
invocation; if the callback never fires the pipeline stalls. -/
def getStep (p : Trace × List (Option Err)) : StepFn :=
  fun fs => (fs, p.1, p.2.head?)

/-! ### The two pipelines -/

/-- External behavior of one backup run: the starting filesystem, the
`mongodump` child run, the `tar` child run, and the store's response to the
upload. -/
structure SyncEnv where
  fs : FS
  dump : ProcRun
  tar : ProcRun
  s3 : S3PutEnv

/-- Embedding of `sync` (the backup pipeline): remove the staging backup
subdir, remove a pre-existing archive file, dump, compress, upload, in an
`async.series`; the final callback logs the first error (tag `error`) or a
success message naming the database, and passes the error on.  `tmpRoot`
stands for `os.tmpDir()` and `date` for `new Date()` inside
`getArchiveName`. -/
def sync (cfg : MongoConfig) (s3c : S3Config) (tmpRoot : String)
    (date : JsDate) (env : SyncEnv) : Trace × Option (Option Err) :=
  let tmpDir := pathJoin tmpRoot "mongodb_s3_backup"
  let backupDir := pathJoin tmpDir cfg.db
  let archiveName := getArchiveName cfg.db date
  let r := runSeries
    [removeRFStep backupDir,
     removeRFStep (pathJoin tmpDir archiveName),
     pureStep (mongoDump cfg tmpDir env.dump),
     pureStep (compressDirectory tmpDir cfg.db archiveName env.tar),
     pureStep (sendToS3 s3c tmpDir archiveName env.s3)] env.fs
  match r.2.2 with
  | none => (r.2.1, none)
  | some (some e) => (r.2.1 ++ [.log e "error"], some (some e))
  | some none =>
    (r.2.1 ++ [.log ("Successfully backed up " ++ cfg.db) "info"], some none)

/-- External behavior of one restore run. -/
structure RestoreEnv where
  fs : FS
  get : S3GetEnv
  tar : ProcRun
  restore : ProcRun

/-- Embedding of `restoreFromS3` (the restore pipeline): remove the whole
staging root, download the named archive, decompress it, restore the
database, in an `async.series`; the final callback logs the first error or a
success message and passes the error on. -/
def restoreFromS3 (cfg : MongoConfig) (s3c : S3Config)
    (remoteFilename : String) (tmpRoot : String) (env : RestoreEnv) :
    Trace × Option (Option Err) :=
  let tmpDir := pathJoin tmpRoot "mongodb_s3_backup"
  let backupDir := pathJoin tmpDir cfg.db
  let r := runSeries
    [removeRFStep tmpDir,
     getStep (getFromS3 s3c remoteFilename (pathJoin tmpDir remoteFilename)
       env.get),
     pureStep (uncompressArchive (pathJoin tmpDir remoteFilename) tmpDir
       env.tar),
     pureStep (mongoRestore cfg backupDir env.restore)] env.fs
  match r.2.2 with
  | none => (r.2.1, none)
  | some (some e) => (r.2.1 ++ [.log e "error"], some (some e))
  | some none =>
    (r.2.1 ++ [.log ("Successfully Restored " ++ cfg.db) "info"], some none)

/-! ### Helper lemmas -/

/-! ### Facts about the decimal rendering -/

example : natToDec 0 = "0" := rfl
example : natToDec 7 = "7" := rfl
example : natToDec 404 = "404" := rfl
example : natToDec 2024 = "2024" := rfl
example : natToDec 1324512000000 = "1324512000000" := rfl
example : natToDec 404 = (404 : Nat).repr := rfl
example : natToDec 1324512000000 = (1324512000000 : Nat).repr := rfl


theorem decAux_fuel_irrel : ∀ f₁ f₂ n, n < f₁ → n < f₂ →
    decAux f₁ n = decAux f₂ n := by
  intro f₁
  induction f₁ with
  | zero => intro f₂ n h; exact absurd h (Nat.not_lt_zero n)
  | succ g ih =>
    intro f₂ n h₁ h₂
    cases f₂ with
    | zero => exact absurd h₂ (Nat.not_lt_zero n)
    | succ h =>
      by_cases hn : n < 10
      · simp [decAux, hn]
      · have hpos : 0 < n := by omega
        have hdiv : n / 10 < n := Nat.div_lt_self hpos (by omega)
        have hg : n / 10 < g := by omega
        have hh : n / 10 < h := by omega
        simp only [decAux, if_neg hn]
        rw [ih h (n / 10) hg hh]

theorem decAux_step {n : Nat} (h : ¬ n < 10) {f : Nat} (hf : n < f) :
    decAux f n = decAux (n / 10 + 1) (n / 10) ++ [decDigit (n % 10)] := by
  cases f with
  | zero => exact absurd hf (Nat.not_lt_zero n)
  | succ g =>
    have hpos : 0 < n := by omega
    have hdiv : n / 10 < n := Nat.div_lt_self hpos (by omega)
    have hu : decAux (g + 1) n = decAux g (n / 10) ++ [decDigit (n % 10)] := by
      simp only [decAux, if_neg h]
    rw [hu, decAux_fuel_irrel g (n / 10 + 1) (n / 10) (by omega) (Nat.lt_succ_self _)]


theorem decDigitsOf_lt {n : Nat} (h : n < 10) : decDigitsOf n = [decDigit n] := by
  simp [decDigitsOf, decAux, h]

theorem decDigitsOf_ge {n : Nat} (h : ¬ n < 10) :
    decDigitsOf n = decDigitsOf (n / 10) ++ [decDigit (n % 10)] :=
  decAux_step h (Nat.lt_succ_self n)

theorem decVal_append_digit (l : List Char) (c : Char) :
    decVal (l ++ [c]) = 10 * decVal l + (c.toNat - 48) := by
  simp [decVal, List.foldl_append]

theorem decDigit_toNat {n : Nat} (h : n < 10) : (decDigit n).toNat = 48 + n := by
  interval_cases n <;> decide

theorem decVal_decDigitsOf : ∀ n, decVal (decDigitsOf n) = n := by
  intro n
  induction n using Nat.strong_induction_on with
  | _ n ih =>
    by_cases h : n < 10
    · rw [decDigitsOf_lt h]
      simp [decVal, decDigit_toNat h]
    · have hpos : 0 < n := by omega
      have hdiv : n / 10 < n := Nat.div_lt_self hpos (by omega)
      rw [decDigitsOf_ge h, decVal_append_digit, ih (n / 10) hdiv,
        decDigit_toNat (Nat.mod_lt n (by omega))]
      omega

theorem decDigitsOf_injective {m n : Nat} (h : decDigitsOf m = decDigitsOf n) :
    m = n := by
  have := congrArg decVal h
  rwa [decVal_decDigitsOf, decVal_decDigitsOf] at this

theorem natToDec_injective {m n : Nat} (h : natToDec m = natToDec n) : m = n := by
  apply decDigitsOf_injective
  have := congrArg String.data h
  exact this

theorem mem_decAux_is_digit : ∀ f n c, c ∈ decAux f n → ∃ k, k < 10 ∧ c = decDigit k := by
  intro f
  induction f with
  | zero => intro n c h; simp [decAux] at h
  | succ g ih =>
    intro n c h
    by_cases hn : n < 10
    · simp [decAux, hn] at h
      exact ⟨n, hn, h⟩
    · simp only [decAux, if_neg hn, List.mem_append, List.mem_singleton] at h
      rcases h with h | h
      · exact ih (n / 10) c h
      · exact ⟨n % 10, Nat.mod_lt n (by omega), h⟩

theorem underscore_not_mem_decDigitsOf (n : Nat) : '_' ∉ decDigitsOf n := by
  intro h
  rcases mem_decAux_is_digit (n + 1) n '_' h with ⟨k, hk, he⟩
  revert he
  interval_cases k <;> decide

theorem natToDec_data (n : Nat) : (natToDec n).data = decDigitsOf n := rfl

/-! ### Small string utilities shared by the embedding -/


theorem removeRF_err (fs : FS) (t : String) : (removeRF fs t).2.2 = none := by
  unfold removeRF
  split <;> rfl

theorem mem_stdLogsBoth {e : Event} {evs : List ProcEv}
    (h : e ∈ stdLogsBoth evs) : ∃ m t, e = .log m t := by
  simp only [stdLogsBoth, List.mem_map] at h
  rcases h with ⟨a, _, ha⟩
  cases a with
  | out d => exact ⟨d, "info", ha.symm⟩
  | err d => exact ⟨d, "error", ha.symm⟩

theorem mem_stderrLogsOnly {e : Event} {evs : List ProcEv}
    (h : e ∈ stderrLogsOnly evs) : ∃ m t, e = .log m t := by
  simp only [stderrLogsOnly, List.mem_filterMap] at h
  rcases h with ⟨a, _, ha⟩
  cases a with
  | out d => simp at ha
  | err d => exact ⟨d, "error", by simpa using ha.symm⟩

theorem containsCI_append_left {sub a : String} (b : String)
    (h : lowerChars sub <+: lowerChars a) : containsCI (a ++ b) sub := by
  unfold containsCI lowerChars at *
  rw [String.data_append, List.map_append]
  exact (h.trans (List.prefix_append _ _)).isInfix

theorem containsStr_append_right (a b : String) : containsStr (a ++ b) b := by
  unfold containsStr
  rw [String.data_append]
  exact (List.suffix_append _ _).isInfix

@[simp] theorem stdLogsBoth_no_s3Put (evs : List ProcEv) (s d : String) :
    Event.s3Put s d ∉ stdLogsBoth evs := by
  intro h
  rcases mem_stdLogsBoth h with ⟨m, t, he⟩
  exact Event.noConfusion he

@[simp] theorem stdLogsBoth_no_spawn (evs : List ProcEv) (c : String)
    (a : List String) (w : Option String) :
    Event.spawnProc c a w ∉ stdLogsBoth evs := by
  intro h
  rcases mem_stdLogsBoth h with ⟨m, t, he⟩
  exact Event.noConfusion he

@[simp] theorem stderrLogsOnly_no_s3Put (evs : List ProcEv) (s d : String) :
    Event.s3Put s d ∉ stderrLogsOnly evs := by
  intro h
  rcases mem_stderrLogsOnly h with ⟨m, t, he⟩
  exact Event.noConfusion he

@[simp] theorem stderrLogsOnly_no_spawn (evs : List ProcEv) (c : String)
    (a : List String) (w : Option String) :
    Event.spawnProc c a w ∉ stderrLogsOnly evs := by
  intro h
  rcases mem_stderrLogsOnly h with ⟨m, t, he⟩
  exact Event.noConfusion he

theorem mongoDump_no_s3Put (o : MongoConfig) (dir : String) (run : ProcRun)
    (s d : String) : Event.s3Put s d ∉ (mongoDump o dir run).1 := by
  intro h
  by_cases h0 : run.exitCode = 0 <;> simp [mongoDump, h0] at h

theorem mongoDump_no_spawn_tar (o : MongoConfig) (dir : String) (run : ProcRun)
    (a : List String) (w : Option String) :
    Event.spawnProc "tar" a w ∉ (mongoDump o dir run).1 := by
  intro h
  by_cases h0 : run.exitCode = 0 <;> simp [mongoDump, h0] at h

theorem removeRF_no_s3Put (fs : FS) (t : String) (s d : String) :
    Event.s3Put s d ∉ (removeRF fs t).2.1 := by
  unfold removeRF
  split <;> simp

theorem removeRF_no_spawn (fs : FS) (t : String) (c : String) (a : List String)
    (w : Option String) : Event.spawnProc c a w ∉ (removeRF fs t).2.1 := by
  unfold removeRF
  split <;> simp

theorem compressDirectory_no_s3Put (dir input output : String) (run : ProcRun)
    (s d : String) :
    Event.s3Put s d ∉ (compressDirectory dir input output run).1 := by
  intro h
  by_cases h0 : run.exitCode = 0 <;> simp [compressDirectory, h0] at h

theorem getFromS3_no_spawn (o : S3Config) (t dest : String) (env : S3GetEnv)
    (c : String) (a : List String) (w : Option String) :
    Event.spawnProc c a w ∉ (getFromS3 o t dest env).1 := by
  intro h
  cases env with
  | transportErr e => simp [getFromS3] at h
  | response st sizes mkErr closes =>
    cases mkErr <;> by_cases h200 : st = 200 <;> cases closes <;>
      simp [getFromS3, h200] at h

theorem eq_of_append_sep {c : Char} {l₁ l₂ r₁ r₂ : List Char}
    (h : l₁ ++ c :: r₁ = l₂ ++ c :: r₂) (h₁ : c ∉ r₁) (h₂ : c ∉ r₂) :
    r₁ = r₂ := by
  have s₁ : c :: r₁ <:+ l₂ ++ c :: r₂ := by
    rw [← h]; exact List.suffix_append _ _
  have s₂ : c :: r₂ <:+ l₂ ++ c :: r₂ := List.suffix_append _ _
  rcases List.suffix_or_suffix_of_suffix s₁ s₂ with hs | hs
  · rcases hs with ⟨u, hu⟩
    cases u with
    | nil => simpa using hu
    | cons x u' =>
      simp only [List.cons_append, List.cons.injEq] at hu
      exact absurd (hu.2 ▸ List.mem_append_right u' (List.mem_cons_self c r₁)) h₂
  · rcases hs with ⟨u, hu⟩
    cases u with
    | nil => simpa using hu.symm
    | cons x u' =>
      simp only [List.cons_append, List.cons.injEq] at hu
      exact absurd (hu.2 ▸ List.mem_append_right u' (List.mem_cons_self c r₂)) h₁

theorem getArchiveName_data (db : String) (d : JsDate) :
    (getArchiveName db d).data =
      (db.data ++ '_' :: decDigitsOf d.fullYear ++ '_' :: decDigitsOf (d.month0 + 1) ++
        '_' :: decDigitsOf d.dayOfMonth) ++
      '_' :: (decDigitsOf d.epochMillis ++ (".tar.gz" : String).data) := by
  have hu : ("_" : String).data = ['_'] := rfl
  simp [getArchiveName, String.data_append, natToDec_data, hu, List.append_assoc]

theorem underscore_not_mem_tail (t : Nat) :
    '_' ∉ decDigitsOf t ++ (".tar.gz" : String).data := by
  intro h
  rcases List.mem_append.1 h with h | h
  · exact underscore_not_mem_decDigitsOf _ h
  · revert h
    decide

theorem getArchiveName_epoch_inj {db₁ db₂ : String} {d₁ d₂ : JsDate}
    (hne : d₁.epochMillis ≠ d₂.epochMillis) :
    getArchiveName db₁ d₁ ≠ getArchiveName db₂ d₂ := by
  intro heq
  have hd := congrArg String.data heq
  rw [getArchiveName_data, getArchiveName_data] at hd
  have hr := eq_of_append_sep hd (underscore_not_mem_tail _) (underscore_not_mem_tail _)
  exact hne (decDigitsOf_injective (List.append_cancel_right hr))

/-- C5: the archive name is exactly
`databaseName ++ "_" ++ year ++ "_" ++ month(1-indexed) ++ "_" ++ day ++ "_"
 ++ epochMillis ++ ".tar.gz"` (here `date.month0` is the 0-indexed
`getMonth()` value, so `date.month0 + 1` is the 1-indexed month); hence it
always begins with `databaseName ++ "_"`, always ends with `".tar.gz"`, and
two calls whose epoch-millisecond values differ produce distinct names (even
with all other date components, and even the database name, arbitrary). -/
theorem c5_archive_name_format (databaseName : String) (date : JsDate) :
    getArchiveName databaseName date =
      databaseName ++ "_" ++ natToDec date.fullYear ++ "_" ++
        natToDec (date.month0 + 1) ++ "_" ++ natToDec date.dayOfMonth ++ "_" ++
        natToDec date.epochMillis ++ ".tar.gz" ∧
    (∃ rest, getArchiveName databaseName date = databaseName ++ "_" ++ rest) ∧
    (∃ stem, getArchiveName databaseName date = stem ++ ".tar.gz") ∧
    (∀ (db' : String) (date' : JsDate), date.epochMillis ≠ date'.epochMillis →
      getArchiveName databaseName date ≠ getArchiveName db' date') := by
  refine ⟨rfl,
    ⟨natToDec date.fullYear ++ "_" ++ natToDec (date.month0 + 1) ++ "_" ++
      natToDec date.dayOfMonth ++ "_" ++ natToDec date.epochMillis ++ ".tar.gz", ?_⟩,
    ⟨databaseName ++ "_" ++ natToDec date.fullYear ++ "_" ++
      natToDec (date.month0 + 1) ++ "_" ++ natToDec date.dayOfMonth ++ "_" ++
      natToDec date.epochMillis, rfl⟩, ?_⟩
  · simp [getArchiveName, String.append_assoc]
  · intro db' date' hne
    exact getArchiveName_epoch_inj hne

/-- Witness for C5 at a concrete instant: two calls one millisecond apart
produce different names. -/
theorem c5_archive_name_format_witness :
    getArchiveName "mydb" ⟨2024, 0, 5, 1324512000000⟩ ≠
      getArchiveName "mydb" ⟨2024, 0, 5, 1324512000001⟩ :=
  (c5_archive_name_format "mydb" ⟨2024, 0, 5, 1324512000000⟩).2.2.2 "mydb"
    ⟨2024, 0, 5, 1324512000001⟩ (by decide)

/-- C4: the dump and restore argument lists carry `-u <username> -p
<password>` exactly when both credentials are truthy; when they are not both
truthy (in particular when exactly one is set) nothing is appended to the
base argument list, so neither credential flag occurs (the membership form
requires the benign side condition that no other configured value is
literally the flag string). -/
theorem c4_credential_flags (o : MongoConfig) (dir bdir : String) :
    (bothCreds o = true →
      mongoDumpArgs o dir =
        ["-h", o.host ++ ":" ++ natToDec o.port, "-d", o.db, "-o", dir,
         "-u", o.username.getD "", "-p", o.password.getD ""] ∧
      mongoRestoreArgs o bdir =
        ["-h", o.host ++ ":" ++ natToDec o.port, "-d", o.db, "--drop", bdir,
         "-u", o.username.getD "", "-p", o.password.getD ""] ∧
      "-u" ∈ mongoDumpArgs o dir ∧ "-p" ∈ mongoDumpArgs o dir ∧
      "-u" ∈ mongoRestoreArgs o bdir ∧ "-p" ∈ mongoRestoreArgs o bdir) ∧
    (bothCreds o = false →
      mongoDumpArgs o dir =
        ["-h", o.host ++ ":" ++ natToDec o.port, "-d", o.db, "-o", dir] ∧
      mongoRestoreArgs o bdir =
        ["-h", o.host ++ ":" ++ natToDec o.port, "-d", o.db, "--drop", bdir] ∧
      (("-u" : String) ∉
          ["-h", o.host ++ ":" ++ natToDec o.port, "-d", o.db, "-o", dir] →
        "-u" ∉ mongoDumpArgs o dir) ∧
      (("-p" : String) ∉
          ["-h", o.host ++ ":" ++ natToDec o.port, "-d", o.db, "-o", dir] →
        "-p" ∉ mongoDumpArgs o dir) ∧
      (("-u" : String) ∉
          ["-h", o.host ++ ":" ++ natToDec o.port, "-d", o.db, "--drop", bdir] →
        "-u" ∉ mongoRestoreArgs o bdir) ∧
      (("-p" : String) ∉
          ["-h", o.host ++ ":" ++ natToDec o.port, "-d", o.db, "--drop", bdir] →
        "-p" ∉ mongoRestoreArgs o bdir)) ∧
    (truthy o.username = true → truthy o.password = false → bothCreds o = false) ∧
    (truthy o.username = false → truthy o.password = true → bothCreds o = false) := by
  refine ⟨?_, ?_, ?_, ?_⟩
  · intro hb
    refine ⟨by simp [mongoDumpArgs, hb], by simp [mongoRestoreArgs, hb], ?_, ?_, ?_, ?_⟩ <;>
      simp [mongoDumpArgs, mongoRestoreArgs, hb]
  · intro hb
    refine ⟨by simp [mongoDumpArgs, hb], by simp [mongoRestoreArgs, hb], ?_, ?_, ?_, ?_⟩ <;>
      · intro hmem
        simpa [mongoDumpArgs, mongoRestoreArgs, hb] using hmem
  · intro hu hp
    simp [bothCreds, hu, hp]
  · intro hu hp
    simp [bothCreds, hu, hp]

/-- Witness for C4 at concrete configurations: with only a username set
nothing is appended, and with both set the flags are present. -/
theorem c4_credential_flags_witness :
    mongoDumpArgs ⟨"h", 27017, some "user", none, "db"⟩ "/out" =
      ["-h", "h:27017", "-d", "db", "-o", "/out"] ∧
    "-u" ∈ mongoDumpArgs ⟨"h", 27017, some "user", some "pw", "db"⟩ "/out" := by
  constructor
  · exact ((c4_credential_flags ⟨"h", 27017, some "user", none, "db"⟩ "/out" "/b").2.1
      (by decide)).1
  · exact ((c4_credential_flags ⟨"h", 27017, some "user", some "pw", "db"⟩ "/out" "/b").1
      (by decide)).2.2.1

theorem fsExists_rmTree (fs : FS) (t : String) : fsExists (rmTree fs t) t = false := by
  rw [fsExists, List.any_eq_false]
  intro e he
  have h2 := (List.mem_filter.1 he).2
  simp only [Bool.not_eq_true', Bool.or_eq_false_iff] at h2
  simp [h2.1]

/-- C8: `removeRF` on a non-existent path succeeds with no warning log and
no removal subprocess; on an existing path it logs a warning, executes the
forced recursive removal, and succeeds, after which the path no longer
exists, so an immediate second call also succeeds (doing nothing); and it
succeeds on a single-entry filesystem whether the entry is a directory or a
regular file. -/
theorem c8_removeRF_clean (fs : FS) (target : String) (isDir : Bool) :
    (fsExists fs target = false → removeRF fs target = (fs, [], none)) ∧
    (fsExists fs target = true →
      (removeRF fs target).2.2 = none ∧
      (removeRF fs target).2.1 =
        [.log ("Removing " ++ target) "warn", .execCmd ("rm -rf " ++ target)] ∧
      fsExists (removeRF fs target).1 target = false ∧
      (removeRF (removeRF fs target).1 target).2.2 = none ∧
      (removeRF (removeRF fs target).1 target).2.1 = []) ∧
    ((removeRF [(target, isDir)] target).2.2 = none ∧
      (removeRF [(target, isDir)] target).1 = []) := by
  refine ⟨?_, ?_, ?_⟩
  · intro h
    simp [removeRF, h]
  · intro h
    have h1 : (removeRF fs target).1 = rmTree fs target := by simp [removeRF, h]
    refine ⟨by simp [removeRF, h], by simp [removeRF, h], ?_, ?_, ?_⟩
    · rw [h1]; exact fsExists_rmTree fs target
    · rw [h1]; simp [removeRF, fsExists_rmTree]
    · rw [h1]; simp [removeRF, fsExists_rmTree]
  · have hx : fsExists [(target, isDir)] target = true := by simp [fsExists]
    constructor
    · simp [removeRF, hx]
    · simp [removeRF, hx, rmTree]

/-- Witness for C8 at a concrete path and filesystem. -/
theorem c8_removeRF_clean_witness :
    removeRF [] "/tmp/x" = ([], [], none) ∧
    fsExists (removeRF [("/tmp/x", true)] "/tmp/x").1 "/tmp/x" = false := by
  constructor
  · exact (c8_removeRF_clean [] "/tmp/x" true).1 (by decide)
  · exact ((c8_removeRF_clean [("/tmp/x", true)] "/tmp/x" true).2.1 (by decide)).2.2.1

/-- C3: for each process-runner specialization the callback succeeds exactly
when the exit code is 0, and otherwise carries an error message embedding
the external command's name (up to the capitalization the source applies to
it) and the exit code. -/
theorem c3_exit_code_contract (o : MongoConfig)
    (dir bdir cwdDir input output arcIn outDir : String) (run : ProcRun) :
    (((mongoDump o dir run).2 = none ↔ run.exitCode = 0) ∧
      (run.exitCode ≠ 0 →
        (mongoDump o dir run).2 =
          some ("Mongodump exited with code " ++ natToDec run.exitCode) ∧
        containsCI ("Mongodump exited with code " ++ natToDec run.exitCode)
          "mongodump" ∧
        containsStr ("Mongodump exited with code " ++ natToDec run.exitCode)
          (natToDec run.exitCode))) ∧
    (((mongoRestore o bdir run).2 = none ↔ run.exitCode = 0) ∧
      (run.exitCode ≠ 0 →
        (mongoRestore o bdir run).2 =
          some ("Mongorestore exited with code " ++ natToDec run.exitCode) ∧
        containsCI ("Mongorestore exited with code " ++ natToDec run.exitCode)
          "mongorestore" ∧
        containsStr ("Mongorestore exited with code " ++ natToDec run.exitCode)
          (natToDec run.exitCode))) ∧
    (((compressDirectory cwdDir input output run).2 = none ↔ run.exitCode = 0) ∧
      (run.exitCode ≠ 0 →
        (compressDirectory cwdDir input output run).2 =
          some ("Tar exited with code " ++ natToDec run.exitCode) ∧
        containsCI ("Tar exited with code " ++ natToDec run.exitCode) "tar" ∧
        containsStr ("Tar exited with code " ++ natToDec run.exitCode)
          (natToDec run.exitCode))) ∧
    (((uncompressArchive arcIn outDir run).2 = none ↔ run.exitCode = 0) ∧
      (run.exitCode ≠ 0 →
        (uncompressArchive arcIn outDir run).2 =
          some ("Tar exited with code " ++ natToDec run.exitCode) ∧
        containsCI ("Tar exited with code " ++ natToDec run.exitCode) "tar" ∧
        containsStr ("Tar exited with code " ++ natToDec run.exitCode)
          (natToDec run.exitCode))) := by
  refine ⟨⟨?_, ?_⟩, ⟨?_, ?_⟩, ⟨?_, ?_⟩, ⟨?_, ?_⟩⟩
  · by_cases h : run.exitCode = 0 <;> simp [mongoDump, h]
  · intro h
    exact ⟨by simp [mongoDump, h], containsCI_append_left _ (by decide),
      containsStr_append_right _ _⟩
  · by_cases h : run.exitCode = 0 <;> simp [mongoRestore, h]
  · intro h
    exact ⟨by simp [mongoRestore, h], containsCI_append_left _ (by decide),
      containsStr_append_right _ _⟩
  · by_cases h : run.exitCode = 0 <;> simp [compressDirectory, h]
  · intro h
    exact ⟨by simp [compressDirectory, h], containsCI_append_left _ (by decide),
      containsStr_append_right _ _⟩
  · by_cases h : run.exitCode = 0 <;> simp [uncompressArchive, h]
  · intro h
    exact ⟨by simp [uncompressArchive, h], containsCI_append_left _ (by decide),
      containsStr_append_right _ _⟩

/-- Witness for C3: at exit code 1 the dump error mentions the tool and the
code; at exit code 0 the callback carries no error. -/
theorem c3_exit_code_contract_witness :
    (mongoDump ⟨"h", 27017, none, none, "db"⟩ "/tmp" ⟨[], 0⟩).2 = none ∧
    (mongoDump ⟨"h", 27017, none, none, "db"⟩ "/tmp" ⟨[], 1⟩).2 =
      some ("Mongodump exited with code " ++ natToDec 1) ∧
    containsCI ("Mongodump exited with code " ++ natToDec 1) "mongodump" := by
  refine ⟨?_, ?_, ?_⟩
  · exact ((c3_exit_code_contract ⟨"h", 27017, none, none, "db"⟩ "/tmp" "b" "c" "i" "o"
      "a" "d" ⟨[], 0⟩).1.1).2 rfl
  · exact ((c3_exit_code_contract ⟨"h", 27017, none, none, "db"⟩ "/tmp" "b" "c" "i" "o"
      "a" "d" ⟨[], 1⟩).1.2 (by decide)).1
  · exact ((c3_exit_code_contract ⟨"h", 27017, none, none, "db"⟩ "/tmp" "b" "c" "i" "o"
      "a" "d" ⟨[], 1⟩).1.2 (by decide)).2.1

/-- C6: for the upload, a response with a non-200 status makes the callback
fail with the status embedded in the message even though the transport
reported no error; every response chunk is logged with tag `error` when the
status is not 200 and with the default `info` tag otherwise; the callback
reports no error only for status 200, and in that case the success log
comes after all chunk logs, at the very end of the trace; a transport error
is passed through directly. -/
theorem c6_upload_status (o : S3Config) (dir target : String) (st : Nat)
    (chunks : List String) (e : Err) :
    (st ≠ 200 →
      (sendToS3 o dir target (.response st chunks)).2 =
        some ("Expected a 200 response from S3, got " ++ natToDec st) ∧
      containsStr ("Expected a 200 response from S3, got " ++ natToDec st)
        (natToDec st)) ∧
    (∀ c, c ∈ chunks →
      Event.log c (if st = 200 then "info" else "error") ∈
        (sendToS3 o dir target (.response st chunks)).1) ∧
    ((sendToS3 o dir target (.response st chunks)).2 = none → st = 200) ∧
    (st = 200 →
      (sendToS3 o dir target (.response st chunks)).1 =
        [.log ("Attemping to upload " ++ target ++ " to the " ++ o.bucket ++
            " s3 bucket") "info",
         .s3Put (pathJoin dir target)
           (pathJoin (destinationOf o.destination) target)] ++
        chunks.map (fun c => .log c "info") ++
        [.log "Successfully uploaded to s3" "info"] ∧
      (sendToS3 o dir target (.response st chunks)).2 = none) ∧
    (sendToS3 o dir target (.transportErr e)).2 = some e := by
  refine ⟨?_, ?_, ?_, ?_, rfl⟩
  · intro h
    exact ⟨by simp [sendToS3, h], containsStr_append_right _ _⟩
  · intro c hc
    by_cases h : st = 200 <;> simp [sendToS3, h] <;> tauto
  · intro h
    by_cases h200 : st = 200
    · exact h200
    · exfalso
      simp [sendToS3, h200] at h
  · intro h
    exact ⟨by simp [sendToS3, h], by simp [sendToS3, h]⟩

/-- Witness for C6 at a concrete 500 response with one chunk. -/
theorem c6_upload_status_witness :
    (sendToS3 ⟨"k", "s", "b", none⟩ "/d" "t" (.response 500 ["oops"])).2 =
      some "Expected a 200 response from S3, got 500" ∧
    Event.log "oops" "error" ∈
      (sendToS3 ⟨"k", "s", "b", none⟩ "/d" "t" (.response 500 ["oops"])).1 := by
  have h := c6_upload_status ⟨"k", "s", "b", none⟩ "/d" "t" 500 ["oops"] "e"
  constructor
  · exact ((h.1 (by decide)).1).trans (by decide)
  · simpa using h.2.1 "oops" (by decide)

theorem out_mem_stdLogsBoth {d : String} {evs : List ProcEv}
    (h : ProcEv.out d ∈ evs) : Event.log d "info" ∈ stdLogsBoth evs :=
  List.mem_map.2 ⟨_, h, rfl⟩

theorem err_mem_stdLogsBoth {d : String} {evs : List ProcEv}
    (h : ProcEv.err d ∈ evs) : Event.log d "error" ∈ stdLogsBoth evs :=
  List.mem_map.2 ⟨_, h, rfl⟩

theorem err_mem_stderrLogsOnly {d : String} {evs : List ProcEv}
    (h : ProcEv.err d ∈ evs) : Event.log d "error" ∈ stderrLogsOnly evs :=
  List.mem_filterMap.2 ⟨_, h, rfl⟩

/-- C7 is false as stated for the compress runner: `compressDirectory`
registers no stdout handler, so a stdout chunk of the `tar` child is never
logged (here a run whose only stream event is the stdout chunk `"chunk"`
produces no info log of it). -/
theorem c7_compress_stdout_unlogged :
    Event.log "chunk" "info" ∉
      (compressDirectory "/d" "in" "out.tar.gz" ⟨[ProcEv.out "chunk"], 0⟩).1 := by
  decide

/-- C7 (amended): the dump, restore and decompress runners log every stdout
chunk at info level and every stderr chunk at error level as it arrives; the
compress runner logs only stderr chunks at error level, and its stdout
chunks are not logged at all (a run consisting only of stdout events
contributes nothing to its streamed log segment, which is exactly
`stderrLogsOnly`). -/
theorem c7_stream_logging_amended (o : MongoConfig)
    (dir bdir input output arcIn outDir : String) (run : ProcRun) :
    (∀ d, ProcEv.out d ∈ run.events →
      Event.log d "info" ∈ (mongoDump o dir run).1) ∧
    (∀ d, ProcEv.err d ∈ run.events →
      Event.log d "error" ∈ (mongoDump o dir run).1) ∧
    (∀ d, ProcEv.out d ∈ run.events →
      Event.log d "info" ∈ (mongoRestore o bdir run).1) ∧
    (∀ d, ProcEv.err d ∈ run.events →
      Event.log d "error" ∈ (mongoRestore o bdir run).1) ∧
    (∀ d, ProcEv.out d ∈ run.events →
      Event.log d "info" ∈ (uncompressArchive arcIn outDir run).1) ∧
    (∀ d, ProcEv.err d ∈ run.events →
      Event.log d "error" ∈ (uncompressArchive arcIn outDir run).1) ∧
    (∀ d, ProcEv.err d ∈ run.events →
      Event.log d "error" ∈ (compressDirectory dir input output run).1) ∧
    (∀ evs : List ProcEv, (∀ e ∈ evs, ∃ d, e = ProcEv.out d) →
      stderrLogsOnly evs = []) ∧
    (compressDirectory dir input output run).1 =
      [.log ("Starting compression of " ++ input ++ " into " ++ output) "info",
       .spawnProc "tar" ["-zcf", output, input] (some dir)] ++
      stderrLogsOnly run.events ++
      (if run.exitCode = 0 then [.log "successfully compress directory" "info"]
       else []) := by
  refine ⟨?_, ?_, ?_, ?_, ?_, ?_, ?_, ?_, rfl⟩
  · intro d h
    exact List.mem_append_left _ (List.mem_append_right _ (out_mem_stdLogsBoth h))
  · intro d h
    exact List.mem_append_left _ (List.mem_append_right _ (err_mem_stdLogsBoth h))
  · intro d h
    exact List.mem_append_left _ (List.mem_append_right _ (out_mem_stdLogsBoth h))
  · intro d h
    exact List.mem_append_left _ (List.mem_append_right _ (err_mem_stdLogsBoth h))
  · intro d h
    exact List.mem_append_left _ (List.mem_append_right _ (out_mem_stdLogsBoth h))
  · intro d h
    exact List.mem_append_left _ (List.mem_append_right _ (err_mem_stdLogsBoth h))
  · intro d h
    exact List.mem_append_left _ (List.mem_append_right _ (err_mem_stderrLogsOnly h))
  · intro evs h
    induction evs with
    | nil => rfl
    | cons x xs ih =>
      rcases h x (List.mem_cons_self x xs) with ⟨d, rfl⟩
      simp only [stderrLogsOnly, List.filterMap_cons]
      exact ih fun e he => h e (List.mem_cons_of_mem _ he)

/-- Witness for C7 (amended) at a concrete run with one stdout and one
stderr chunk. -/
theorem c7_stream_logging_amended_witness :
    Event.log "progress" "info" ∈
      (mongoDump ⟨"h", 27017, none, none, "db"⟩ "/d"
        ⟨[ProcEv.out "progress", ProcEv.err "warnx"], 0⟩).1 ∧
    Event.log "warnx" "error" ∈
      (compressDirectory "/d" "i" "o"
        ⟨[ProcEv.out "progress", ProcEv.err "warnx"], 0⟩).1 := by
  have h := c7_stream_logging_amended ⟨"h", 27017, none, none, "db"⟩ "/d" "/b" "i" "o"
    "a" "x" ⟨[ProcEv.out "progress", ProcEv.err "warnx"], 0⟩
  exact ⟨h.1 "progress" (by decide), h.2.2.2.2.2.2.1 "warnx" (by decide)⟩

/-- C9: when the download response ends with a non-200 status after data
chunks were piped into the destination file and the file stream's `close`
event then fires, the completion callback of `getFromS3` is invoked twice:
first with the non-200 error at stream end, then with no error from the
`close` handler. -/
theorem c9_double_callback (o : S3Config) (target dest : String) (st : Nat)
    (sizes : List Nat) (mkErr : Option Err) (h200 : st ≠ 200)
    (_hsz : sizes ≠ []) :
    (getFromS3 o target dest (.response st sizes mkErr true)).2 =
      [some ("Expected a 200 response from S3, got " ++ natToDec st), none] := by
  simp [getFromS3, h200]

/-- Witness for C9 at a concrete 404 response with one 10-byte chunk. -/
theorem c9_double_callback_witness :
    (getFromS3 ⟨"k", "s", "b", none⟩ "a.tar.gz" "/tmp/a.tar.gz"
      (.response 404 [10] none true)).2 =
      [some ("Expected a 200 response from S3, got " ++ natToDec 404), none] :=
  c9_double_callback ⟨"k", "s", "b", none⟩ "a.tar.gz" "/tmp/a.tar.gz" 404 [10] none
    (by decide) (by decide)

theorem mongoDump_snd (o : MongoConfig) (dir : String) (run : ProcRun) :
    (mongoDump o dir run).2 =
      if run.exitCode = 0 then none
      else some ("Mongodump exited with code " ++ natToDec run.exitCode) := rfl

theorem compressDirectory_snd (dir input output : String) (run : ProcRun) :
    (compressDirectory dir input output run).2 =
      if run.exitCode = 0 then none
      else some ("Tar exited with code " ++ natToDec run.exitCode) := rfl

/-- C10: `removeRF` executes the shell command string `"rm -rf " ++ target`
with no quoting or escaping; for the database name `"a b"` (which contains a
space) the backup pipeline's cleanup step executes
`rm -rf /tmp/mongodb_s3_backup/a b`, which the shell tokenizes into the two
arguments `/tmp/mongodb_s3_backup/a` and `b` instead of the intended single
path, so the database name changes which command the shell executes. -/
theorem c10_unquoted_removal_command (fs : FS) (target : String)
    (h : fsExists fs target = true) :
    (removeRF fs target).2.1 =
      [.log ("Removing " ++ target) "warn", .execCmd ("rm -rf " ++ target)] ∧
    pathJoin (pathJoin "/tmp" "mongodb_s3_backup") "a b" =
      "/tmp/mongodb_s3_backup/a b" ∧
    shellWords ("rm -rf " ++ "/tmp/mongodb_s3_backup/a b") =
      ["rm", "-rf", "/tmp/mongodb_s3_backup/a", "b"] ∧
    shellWords ("rm -rf " ++ "/tmp/mongodb_s3_backup/a b") ≠
      ["rm", "-rf", "/tmp/mongodb_s3_backup/a b"] ∧
    Event.execCmd ("rm -rf " ++ "/tmp/mongodb_s3_backup/a b") ∈
      (sync ⟨"h", 1, none, none, "a b"⟩ ⟨"k", "s", "b", none⟩ "/tmp"
        ⟨2024, 0, 1, 5⟩
        ⟨[("/tmp/mongodb_s3_backup/a b", true)], ⟨[], 1⟩, ⟨[], 0⟩,
          .response 200 []⟩).1 := by
  exact ⟨by simp [removeRF, h], by decide, by decide, by decide, by decide⟩

/-- Witness for C10 at a concrete existing path. -/
theorem c10_unquoted_removal_command_witness :
    (removeRF [("p", true)] "p").2.1 =
      [.log "Removing p" "warn", .execCmd "rm -rf p"] :=
  (c10_unquoted_removal_command [("p", true)] "p" (by decide)).1

/-- C2: when the store answers the download with status 404, the restore
pipeline's caller receives an error whose message embeds the status 404, the
error is logged, and neither the decompress step nor the database-restore
step is ever started (no `tar` and no `mongorestore` process is spawned). -/
theorem c2_restore_404_short_circuit (cfg : MongoConfig) (s3c : S3Config)
    (remoteFilename tmpRoot : String) (env : RestoreEnv) (sizes : List Nat)
    (mkErr : Option Err) (closes : Bool)
    (hget : env.get = S3GetEnv.response 404 sizes mkErr closes) :
    (restoreFromS3 cfg s3c remoteFilename tmpRoot env).2 =
      some (some ("Expected a 200 response from S3, got " ++ natToDec 404)) ∧
    ("Expected a 200 response from S3, got " ++ natToDec 404) =
      "Expected a 200 response from S3, got 404" ∧
    containsStr ("Expected a 200 response from S3, got " ++ natToDec 404) "404" ∧
    (∀ a w, Event.spawnProc "tar" a w ∉
      (restoreFromS3 cfg s3c remoteFilename tmpRoot env).1) ∧
    (∀ a w, Event.spawnProc "mongorestore" a w ∉
      (restoreFromS3 cfg s3c remoteFilename tmpRoot env).1) ∧
    Event.log ("Expected a 200 response from S3, got " ++ natToDec 404) "error" ∈
      (restoreFromS3 cfg s3c remoteFilename tmpRoot env).1 := by
  have hcb : (getFromS3 s3c remoteFilename
      (pathJoin (pathJoin tmpRoot "mongodb_s3_backup") remoteFilename)
      env.get).2.head? =
      some (some ("Expected a 200 response from S3, got " ++ natToDec 404)) := by
    rw [hget]
    cases closes <;> simp [getFromS3]
  have key : restoreFromS3 cfg s3c remoteFilename tmpRoot env =
      ((removeRF env.fs (pathJoin tmpRoot "mongodb_s3_backup")).2.1 ++
        ((getFromS3 s3c remoteFilename
            (pathJoin (pathJoin tmpRoot "mongodb_s3_backup") remoteFilename)
            env.get).1 ++
          [Event.log ("Expected a 200 response from S3, got " ++ natToDec 404)
            "error"]),
       some (some ("Expected a 200 response from S3, got " ++ natToDec 404))) := by
    simp [restoreFromS3, runSeries, removeRFStep, getStep, pureStep,
      removeRF_err, hcb, List.append_assoc]
  refine ⟨?_, rfl, by decide, ?_, ?_, ?_⟩
  · rw [key]
  · intro a w
    rw [key]
    simp [removeRF_no_spawn, getFromS3_no_spawn]
  · intro a w
    rw [key]
    simp [removeRF_no_spawn, getFromS3_no_spawn]
  · rw [key]
    simp

/-- Witness for C2 at a concrete 404 download. -/
theorem c2_restore_404_short_circuit_witness :
    (restoreFromS3 ⟨"h", 27017, none, none, "db"⟩ ⟨"k", "s", "b", none⟩
      "db.tar.gz" "/tmp"
      ⟨[], S3GetEnv.response 404 [10] none true, ⟨[], 0⟩, ⟨[], 0⟩⟩).2 =
      some (some ("Expected a 200 response from S3, got " ++ natToDec 404)) :=
  (c2_restore_404_short_circuit ⟨"h", 27017, none, none, "db"⟩ ⟨"k", "s", "b", none⟩
    "db.tar.gz" "/tmp" ⟨[], S3GetEnv.response 404 [10] none true, ⟨[], 0⟩, ⟨[], 0⟩⟩
    [10] none true rfl).1

/-- C1: the backup pipeline runs its five steps strictly in the listed
order, the first failing step short-circuits all remaining steps, and the
error is logged and handed to the caller's callback.  Concretely: the
callback reports success exactly when the dump and compress processes
exited 0 and the upload succeeded; when the dump exits with a non-zero code
(such as 1) the callback receives the `Mongodump exited with code …` error,
which mentions the dump tool's name (up to capitalization) and the exit
code, the error is logged, and no `tar` process and no S3 upload is ever
started; when the compress step fails no upload is started; and when every
step succeeds the trace is exactly the five step traces in order followed by
the final log. -/
theorem c1_backup_pipeline_order (cfg : MongoConfig) (s3c : S3Config)
    (tmpRoot : String) (date : JsDate) (env : SyncEnv) :
    ((sync cfg s3c tmpRoot date env).2 = some none ↔
      env.dump.exitCode = 0 ∧ env.tar.exitCode = 0 ∧
      (sendToS3 s3c (pathJoin tmpRoot "mongodb_s3_backup")
        (getArchiveName cfg.db date) env.s3).2 = none) ∧
    (env.dump.exitCode ≠ 0 →
      (sync cfg s3c tmpRoot date env).2 =
        some (some ("Mongodump exited with code " ++ natToDec env.dump.exitCode)) ∧
      containsCI ("Mongodump exited with code " ++ natToDec env.dump.exitCode)
        "mongodump" ∧
      containsStr ("Mongodump exited with code " ++ natToDec env.dump.exitCode)
        (natToDec env.dump.exitCode) ∧
      (∀ s d, Event.s3Put s d ∉ (sync cfg s3c tmpRoot date env).1) ∧
      (∀ a w, Event.spawnProc "tar" a w ∉ (sync cfg s3c tmpRoot date env).1) ∧
      Event.log ("Mongodump exited with code " ++ natToDec env.dump.exitCode)
        "error" ∈ (sync cfg s3c tmpRoot date env).1) ∧
    (env.dump.exitCode = 0 → env.tar.exitCode ≠ 0 →
      (sync cfg s3c tmpRoot date env).2 =
        some (some ("Tar exited with code " ++ natToDec env.tar.exitCode)) ∧
      ∀ s d, Event.s3Put s d ∉ (sync cfg s3c tmpRoot date env).1) ∧
    (env.dump.exitCode = 0 → env.tar.exitCode = 0 →
      (sync cfg s3c tmpRoot date env).1 =
        (removeRF env.fs
          (pathJoin (pathJoin tmpRoot "mongodb_s3_backup") cfg.db)).2.1 ++
        (removeRF
          (removeRF env.fs
            (pathJoin (pathJoin tmpRoot "mongodb_s3_backup") cfg.db)).1
          (pathJoin (pathJoin tmpRoot "mongodb_s3_backup")
            (getArchiveName cfg.db date))).2.1 ++
        (mongoDump cfg (pathJoin tmpRoot "mongodb_s3_backup") env.dump).1 ++
        (compressDirectory (pathJoin tmpRoot "mongodb_s3_backup") cfg.db
          (getArchiveName cfg.db date) env.tar).1 ++
        (sendToS3 s3c (pathJoin tmpRoot "mongodb_s3_backup")
          (getArchiveName cfg.db date) env.s3).1 ++
        (match (sendToS3 s3c (pathJoin tmpRoot "mongodb_s3_backup")
            (getArchiveName cfg.db date) env.s3).2 with
          | some e => [Event.log e "error"]
          | none =>
            [Event.log ("Successfully backed up " ++ cfg.db) "info"])) := by
  refine ⟨?_, ?_, ?_, ?_⟩
  · by_cases hd : env.dump.exitCode = 0
    · by_cases ht : env.tar.exitCode = 0
      · cases hput : (sendToS3 s3c (pathJoin tmpRoot "mongodb_s3_backup")
            (getArchiveName cfg.db date) env.s3).2 with
        | none =>
          simp [sync, runSeries, removeRFStep, pureStep, removeRF_err,
            mongoDump_snd, compressDirectory_snd, hd, ht, hput]
        | some m =>
          simp [sync, runSeries, removeRFStep, pureStep, removeRF_err,
            mongoDump_snd, compressDirectory_snd, hd, ht, hput]
      · simp [sync, runSeries, removeRFStep, pureStep, removeRF_err,
          mongoDump_snd, compressDirectory_snd, hd, ht]
    · simp [sync, runSeries, removeRFStep, pureStep, removeRF_err,
        mongoDump_snd, compressDirectory_snd, hd]
  · intro hd
    have key : sync cfg s3c tmpRoot date env =
        ((removeRF env.fs
            (pathJoin (pathJoin tmpRoot "mongodb_s3_backup") cfg.db)).2.1 ++
          ((removeRF
              (removeRF env.fs
                (pathJoin (pathJoin tmpRoot "mongodb_s3_backup") cfg.db)).1
              (pathJoin (pathJoin tmpRoot "mongodb_s3_backup")
                (getArchiveName cfg.db date))).2.1 ++
            ((mongoDump cfg (pathJoin tmpRoot "mongodb_s3_backup") env.dump).1 ++
              [Event.log
                ("Mongodump exited with code " ++ natToDec env.dump.exitCode)
                "error"])),
         some (some ("Mongodump exited with code " ++
           natToDec env.dump.exitCode))) := by
      simp [sync, runSeries, removeRFStep, pureStep, removeRF_err,
        mongoDump_snd, hd, List.append_assoc]
    refine ⟨?_, containsCI_append_left _ (by decide),
      containsStr_append_right _ _, ?_, ?_, ?_⟩
    · rw [key]
    · intro s d
      rw [key]
      simp [removeRF_no_s3Put, mongoDump_no_s3Put]
    · intro a w
      rw [key]
      simp [removeRF_no_spawn, mongoDump_no_spawn_tar]
    · rw [key]
      simp
  · intro hd ht
    have key : sync cfg s3c tmpRoot date env =
        ((removeRF env.fs
            (pathJoin (pathJoin tmpRoot "mongodb_s3_backup") cfg.db)).2.1 ++
          ((removeRF
              (removeRF env.fs
                (pathJoin (pathJoin tmpRoot "mongodb_s3_backup") cfg.db)).1
              (pathJoin (pathJoin tmpRoot "mongodb_s3_backup")
                (getArchiveName cfg.db date))).2.1 ++
            ((mongoDump cfg (pathJoin tmpRoot "mongodb_s3_backup") env.dump).1 ++
              ((compressDirectory (pathJoin tmpRoot "mongodb_s3_backup") cfg.db
                  (getArchiveName cfg.db date) env.tar).1 ++
                [Event.log
                  ("Tar exited with code " ++ natToDec env.tar.exitCode)
                  "error"]))),
         some (some ("Tar exited with code " ++ natToDec env.tar.exitCode))) := by
      simp [sync, runSeries, removeRFStep, pureStep, removeRF_err,
        mongoDump_snd, compressDirectory_snd, hd, ht, List.append_assoc]
    refine ⟨?_, ?_⟩
    · rw [key]
    · intro s d
      rw [key]
      simp [removeRF_no_s3Put, mongoDump_no_s3Put, compressDirectory_no_s3Put]
  · intro hd ht
    cases hput : (sendToS3 s3c (pathJoin tmpRoot "mongodb_s3_backup")
        (getArchiveName cfg.db date) env.s3).2 with
    | none =>
      simp [sync, runSeries, removeRFStep, pureStep, removeRF_err,
        mongoDump_snd, compressDirectory_snd, hd, ht, hput, List.append_assoc]
    | some m =>
      simp [sync, runSeries, removeRFStep, pureStep, removeRF_err,
        mongoDump_snd, compressDirectory_snd, hd, ht, hput, List.append_assoc]

/-- Witness for C1: a concrete run whose dump exits with code 1 fails with
the dump error and performs no upload. -/
theorem c1_backup_pipeline_order_witness :
    (sync ⟨"h", 27017, none, none, "db"⟩ ⟨"k", "s", "b", none⟩ "/tmp"
      ⟨2024, 0, 1, 5⟩ ⟨[], ⟨[], 1⟩, ⟨[], 0⟩, .response 200 []⟩).2 =
      some (some ("Mongodump exited with code " ++ natToDec 1)) ∧
    Event.s3Put "/tmp/mongodb_s3_backup/x" "/x" ∉
      (sync ⟨"h", 27017, none, none, "db"⟩ ⟨"k", "s", "b", none⟩ "/tmp"
        ⟨2024, 0, 1, 5⟩ ⟨[], ⟨[], 1⟩, ⟨[], 0⟩, .response 200 []⟩).1 := by
  have h := (c1_backup_pipeline_order ⟨"h", 27017, none, none, "db"⟩
    ⟨"k", "s", "b", none⟩ "/tmp" ⟨2024, 0, 1, 5⟩
    ⟨[], ⟨[], 1⟩, ⟨[], 0⟩, .response 200 []⟩).2.1 (by decide)
  exact ⟨h.1, h.2.2.2.1 "/tmp/mongodb_s3_backup/x" "/x"⟩

end MongoS3
